import Mathlib

/-!
# Verification of the openclaw credential-access-control layer

Shallow embedding of the secret-reference resolver (`src/secrets/resolver.ts`),
the pass-store backend (`src/secrets/backends/pass.ts`), the tiered Ganesh
vault backend (`src/secrets/backends/ganesh.ts`) and the command policy gate
(`src/infra/ganesh-policy-gate.ts`), together with proofs of the behavioural
claims made by the specification.

JavaScript strings are modelled as `List Char`; machine integers and JS
numbers appearing in the embedded fragments are integers (no fractional
values arise in the embedded code paths); external effects (file system,
child processes, the Telegram HTTP API, `node:crypto`) are modelled as
explicit oracle parameters.
-/

/-- JS strings, modelled as lists of characters. -/
abbrev Str := List Char

/-- ASCII whitespace, standing in for the JS `\s` class / `String.trim`
whitespace set (the embedded code only meets ASCII whitespace). -/
def jsIsSpace (c : Char) : Bool :=
  c = ' ' || c = '\t' || c = '\n' || c = '\r' || c = '\x0b' || c = '\x0c'

/-- The JS regex `\w` class: `[A-Za-z0-9_]`. -/
def isWordChar (c : Char) : Bool :=
  ('a' ≤ c && c ≤ 'z') || ('A' ≤ c && c ≤ 'Z') || ('0' ≤ c && c ≤ '9') || c = '_'

/-- The ECMAScript line terminators, which the regex `.` (without the `s`
flag) does not match: LF, CR, LINE SEPARATOR, PARAGRAPH SEPARATOR. -/
def isJsLineTerm (c : Char) : Bool :=
  c = '\n' || c = '\r' || c = '\u2028' || c = '\u2029'

/-- ASCII lower-casing of one character (`String.prototype.toLowerCase`
restricted to ASCII, which is all the embedded code applies it to). -/
def charToLower (c : Char) : Char :=
  if 'A' ≤ c && c ≤ 'Z' then Char.ofNat (c.toNat + 32) else c

/-- ASCII upper-casing of one character (`String.prototype.toUpperCase`
restricted to ASCII). -/
def charToUpper (c : Char) : Char :=
  if 'a' ≤ c && c ≤ 'z' then Char.ofNat (c.toNat - 32) else c

/-- `String.prototype.trim`. -/
def jsTrim (s : Str) : Str :=
  ((s.dropWhile (jsIsSpace ·)).reverse.dropWhile (jsIsSpace ·)).reverse

/-- Does `pre` occur at the start of `s`?  (Used to model anchored regex
prefixes; a hand-rolled version keeps the development self-contained.) -/
def startsWithChars : Str → Str → Bool
  | [], _ => true
  | _ :: _, [] => false
  | p :: ps, c :: cs => p = c && startsWithChars ps cs

theorem startsWithChars_append (pre rest : Str) :
    startsWithChars pre (pre ++ rest) = true := by
  induction pre with
  | nil => rfl
  | cons p ps ih => simp [startsWithChars, ih]

theorem startsWithChars_eq_drop {pre s : Str} (h : startsWithChars pre s = true) :
    s = pre ++ s.drop pre.length := by
  induction pre generalizing s with
  | nil => simp
  | cons p ps ih =>
    cases s with
    | nil => simp [startsWithChars] at h
    | cons a as =>
      simp only [startsWithChars, Bool.and_eq_true, decide_eq_true_eq] at h
      simpa [h.1] using ih h.2

-- ==========================================================================
-- Secret reference parsing (src/secrets/resolver.ts, parseSecretRef)
-- ==========================================================================

/-- `SecretsBackendType` from `src/secrets/types.ts`:
`"pass" | "vault" | "keyring" | "env" | "file" | "ganesh"`. -/
inductive SecretsBackendType where
  | pass | vault | keyring | env | file | ganesh
deriving DecidableEq, Repr

/-- The backend-name string of each backend type. -/
def backendName : SecretsBackendType → Str
  | .pass => "pass".toList
  | .vault => "vault".toList
  | .keyring => "keyring".toList
  | .env => "env".toList
  | .file => "file".toList
  | .ganesh => "ganesh".toList

/-- Parsed secret reference (`SecretRef` in `src/secrets/types.ts`). -/
structure SecretRef where
  backend : SecretsBackendType
  path : Str
  field : Option Str
deriving DecidableEq, Repr

/-- One alternative of the anchored regex `^(pass|vault|keyring|env|file):(.+)$`
in `parseSecretRef`: if `ref` starts with `name ++ ":"` and a non-empty
remainder free of line terminators follows (`.` does not match a line
terminator, and `$` without the `m` flag anchors at the end of input, so a
remainder containing a line terminator defeats the whole match), return that
remainder. -/
def matchBackendAlt (name : Str) (ref : Str) : Option Str :=
  if startsWithChars (name ++ [':']) ref then
    if ref.drop (name.length + 1) = [] then none
    else if (ref.drop (name.length + 1)).all (fun c => !(isJsLineTerm c)) then
      some (ref.drop (name.length + 1))
    else none
  else none

/-- The whole prefix alternation of `parseSecretRef`.  Note the source regex
lists only `pass|vault|keyring|env|file`: the `ganesh` backend declared in
`SecretsBackendType` is *not* recognised as a reference prefix. -/
def matchBackendRefHead (ref : Str) : Option (SecretsBackendType × Str) :=
  match matchBackendAlt "pass".toList ref with
  | some r => some (.pass, r)
  | none =>
  match matchBackendAlt "vault".toList ref with
  | some r => some (.vault, r)
  | none =>
  match matchBackendAlt "keyring".toList ref with
  | some r => some (.keyring, r)
  | none =>
  match matchBackendAlt "env".toList ref with
  | some r => some (.env, r)
  | none =>
  match matchBackendAlt "file".toList ref with
  | some r => some (.file, r)
  | none => none

/-- `true` for every character other than `#` (complement of the literal `#`
in the field-suffix regex). -/
def notHash (c : Char) : Bool := c ≠ '#'

/-- The (reversed) run of non-`#` characters at the end of `s`: the candidate
field of the suffix regex `#(\w+)$`. -/
def fieldRevOf (s : Str) : Str := s.reverse.takeWhile notHash

/-- The field-suffix regex `^(.+)#(\w+)$` of `parseSecretRef`, greedy on the
first group: split at the *last* `#` provided a non-empty all-word-character
field follows it and a non-empty path free of line terminators precedes it.
(Since `\w` excludes `#`, only the last `#` can possibly delimit the field;
since `\w` also excludes line terminators and `.` does not match one, a line
terminator anywhere in the string defeats the whole anchored match.) -/
def splitFieldSuffix (s : Str) : Option (Str × Str) :=
  if (fieldRevOf s).length = s.reverse.length then none
  else if s.reverse.drop ((fieldRevOf s).length + 1) = [] then none
  else if (fieldRevOf s) ≠ [] && (fieldRevOf s).all (isWordChar ·) &&
      (s.reverse.drop ((fieldRevOf s).length + 1)).all (fun c => !(isJsLineTerm c)) then
    some ((s.reverse.drop ((fieldRevOf s).length + 1)).reverse, (fieldRevOf s).reverse)
  else none

/-- `parseSecretRef` from `src/secrets/resolver.ts`.  The TS default for
`defaultBackend` is `"file"`; callers pass their own default explicitly. -/
def parseSecretRef (ref : Str) (defaultBackend : SecretsBackendType) : SecretRef :=
  let (backend, pathWithField) :=
    match matchBackendRefHead ref with
    | some (b, rest) => (b, rest)
    | none => (defaultBackend, ref)
  match splitFieldSuffix pathWithField with
  | some (p, f) => { backend := backend, path := p, field := some f }
  | none => { backend := backend, path := pathWithField, field := none }

-- ==========================================================================
-- Lemmas about the reference parser
-- ==========================================================================

theorem takeWhile_append_all {α : Type} {pr : α → Bool} {l₁ l₂ : List α}
    (h : ∀ c ∈ l₁, pr c = true) :
    List.takeWhile pr (l₁ ++ l₂) = l₁ ++ List.takeWhile pr l₂ := by
  induction l₁ with
  | nil => simp
  | cons a as ih =>
    have ha : pr a = true := h a (by simp)
    simp only [List.cons_append, List.takeWhile_cons, ha, if_true]
    rw [ih fun c hc => h c (by simp [hc])]

theorem takeWhile_all {α : Type} {pr : α → Bool} {l : List α}
    (h : ∀ c ∈ l, pr c = true) : List.takeWhile pr l = l := by
  induction l with
  | nil => rfl
  | cons a as ih =>
    have ha : pr a = true := h a (by simp)
    simp only [List.takeWhile_cons, ha, if_true]
    rw [ih fun c hc => h c (by simp [hc])]

theorem drop_append_len {α : Type} (l₁ l₂ : List α) (k : Nat) :
    (l₁ ++ l₂).drop (l₁.length + k) = l₂.drop k := by
  induction l₁ with
  | nil => simp
  | cons a as ih => simp [Nat.succ_add, ih]

theorem matchBackendAlt_none_of_no_colon (name ref : Str) (h : ':' ∉ ref) :
    matchBackendAlt name ref = none := by
  unfold matchBackendAlt
  cases hsw : startsWithChars (name ++ [':']) ref with
  | false => rfl
  | true =>
    exfalso
    apply h
    rw [startsWithChars_eq_drop hsw]
    simp

theorem matchBackendRefHead_no_colon (ref : Str) (h : ':' ∉ ref) :
    matchBackendRefHead ref = none := by
  unfold matchBackendRefHead
  rw [matchBackendAlt_none_of_no_colon _ _ h, matchBackendAlt_none_of_no_colon _ _ h,
    matchBackendAlt_none_of_no_colon _ _ h, matchBackendAlt_none_of_no_colon _ _ h,
    matchBackendAlt_none_of_no_colon _ _ h]

theorem matchBackendRefHead_name (b : SecretsBackendType) (hb : b ≠ .ganesh)
    (rest : Str) (hr : rest ≠ [])
    (hterm : rest.all (fun c => !(isJsLineTerm c)) = true) :
    matchBackendRefHead (backendName b ++ ':' :: rest) = some (b, rest) := by
  cases b with
  | ganesh => exact absurd rfl hb
  | pass =>
    show matchBackendRefHead ('p' :: 'a' :: 's' :: 's' :: ':' :: rest) = _
    simp [matchBackendRefHead, matchBackendAlt, startsWithChars, hr, hterm]
  | vault =>
    show matchBackendRefHead ('v' :: 'a' :: 'u' :: 'l' :: 't' :: ':' :: rest) = _
    simp [matchBackendRefHead, matchBackendAlt, startsWithChars, hr, hterm]
  | keyring =>
    show matchBackendRefHead ('k' :: 'e' :: 'y' :: 'r' :: 'i' :: 'n' :: 'g' :: ':' :: rest) = _
    simp [matchBackendRefHead, matchBackendAlt, startsWithChars, hr, hterm]
  | env =>
    show matchBackendRefHead ('e' :: 'n' :: 'v' :: ':' :: rest) = _
    simp [matchBackendRefHead, matchBackendAlt, startsWithChars, hr, hterm]
  | file =>
    show matchBackendRefHead ('f' :: 'i' :: 'l' :: 'e' :: ':' :: rest) = _
    simp [matchBackendRefHead, matchBackendAlt, startsWithChars, hr, hterm]

theorem notHash_of_word {c : Char} (hc : isWordChar c = true) : notHash c = true := by
  unfold notHash
  simp only [decide_eq_true_eq]
  intro hceq
  rw [hceq] at hc
  exact absurd hc (by decide)

theorem word_not_lineTerm {c : Char} (hc : isWordChar c = true) :
    isJsLineTerm c = false := by
  cases hlt : isJsLineTerm c with
  | false => rfl
  | true =>
    exfalso
    unfold isJsLineTerm at hlt
    simp only [Bool.or_eq_true, decide_eq_true_eq] at hlt
    rcases hlt with ((rfl | rfl) | rfl) | rfl <;> exact absurd hc (by decide)

theorem fieldRevOf_split (p f : Str) (hw : f.all (isWordChar ·) = true) :
    fieldRevOf (p ++ '#' :: f) = f.reverse := by
  unfold fieldRevOf
  have hrev : (p ++ '#' :: f).reverse = f.reverse ++ '#' :: p.reverse := by simp
  rw [hrev]
  rw [takeWhile_append_all (fun c hc =>
    notHash_of_word ((List.all_eq_true.mp hw) c (List.mem_reverse.mp hc)))]
  simp [List.takeWhile_cons, notHash]

theorem splitFieldSuffix_split (p f : Str) (hp : p ≠ []) (hf : f ≠ [])
    (hw : f.all (isWordChar ·) = true)
    (hpt : p.all (fun c => !(isJsLineTerm c)) = true) :
    splitFieldSuffix (p ++ '#' :: f) = some (p, f) := by
  have hA := fieldRevOf_split p f hw
  have hrev : (p ++ '#' :: f).reverse = f.reverse ++ '#' :: p.reverse := by simp
  have hfw : (f.reverse).all (isWordChar ·) = true := by
    rw [List.all_eq_true]
    exact fun c hc => (List.all_eq_true.mp hw) c (List.mem_reverse.mp hc)
  have hprt : (p.reverse).all (fun c => !(isJsLineTerm c)) = true := by
    rw [List.all_eq_true]
    exact fun c hc => (List.all_eq_true.mp hpt) c (List.mem_reverse.mp hc)
  unfold splitFieldSuffix
  rw [hA, hrev]
  rw [if_neg (by simp)]
  rw [show (f.reverse ++ '#' :: p.reverse).drop (f.reverse.length + 1) = p.reverse from by
    simpa using drop_append_len f.reverse ('#' :: p.reverse) 1]
  rw [if_neg (by simpa using hp)]
  rw [if_pos (by simp [hf, hfw, hprt])]
  simp

theorem splitFieldSuffix_no_hash (p : Str) (h : '#' ∉ p) :
    splitFieldSuffix p = none := by
  have hA : fieldRevOf p = p.reverse := by
    unfold fieldRevOf
    apply takeWhile_all
    intro c hc
    unfold notHash
    simp only [decide_eq_true_eq]
    intro hceq
    exact h (hceq ▸ List.mem_reverse.mp hc)
  unfold splitFieldSuffix
  rw [hA]
  simp

-- ==========================================================================
-- C4: secret reference parsing round-trip
-- ==========================================================================

/-- C4 (amended): `parseSecretRef` recovers `{backend, path, field}` from
`backend:path#field` for backends in the set the parser actually recognises,
`{pass, vault, keyring, env, file}` — the declared `ganesh` backend type is
*not* recognised as a prefix (see `parseSecretRef_ganesh_counterexample`).
Part 1: with a well-formed field (non-empty, word characters only) and a
non-empty path free of line terminators (the JS `.` never matches a line
terminator, so a path containing one defeats both anchored regexes and the
whole reference falls through to the default backend) the three components
are recovered exactly.  Part 2: omitting `#field` (for a line-terminator-free
path containing no `#`) yields a result with no field.  Part 3: omitting the
backend prefix (no `:` in the string) yields the caller-supplied default
backend with the whole string as path. -/
theorem parseSecretRef_roundtrip :
    (∀ (b : SecretsBackendType), b ≠ .ganesh →
      ∀ (p f : Str) (d : SecretsBackendType), p ≠ [] → f ≠ [] →
        f.all (isWordChar ·) = true →
        p.all (fun c => !(isJsLineTerm c)) = true →
        parseSecretRef (backendName b ++ ':' :: (p ++ '#' :: f)) d
          = ⟨b, p, some f⟩) ∧
    (∀ (b : SecretsBackendType), b ≠ .ganesh →
      ∀ (p : Str) (d : SecretsBackendType), p ≠ [] → '#' ∉ p →
        p.all (fun c => !(isJsLineTerm c)) = true →
        parseSecretRef (backendName b ++ ':' :: p) d = ⟨b, p, none⟩) ∧
    (∀ (ref : Str) (d : SecretsBackendType), ':' ∉ ref → '#' ∉ ref →
        parseSecretRef ref d = ⟨d, ref, none⟩) := by
  refine ⟨?_, ?_, ?_⟩
  · intro b hb p f d hp hf hw hpt
    have hrest : (p ++ '#' :: f).all (fun c => !(isJsLineTerm c)) = true := by
      rw [List.all_eq_true]
      intro c hc
      rcases List.mem_append.mp hc with hc | hc
      · exact (List.all_eq_true.mp hpt) c hc
      · rcases List.mem_cons.mp hc with rfl | hc
        · decide
        · have hcw : isWordChar c = true := (List.all_eq_true.mp hw) c hc
          simp [word_not_lineTerm hcw]
    unfold parseSecretRef
    rw [matchBackendRefHead_name b hb _ (by simp) hrest]
    dsimp only
    rw [splitFieldSuffix_split p f hp hf hw hpt]
  · intro b hb p d hp hh hpt
    unfold parseSecretRef
    rw [matchBackendRefHead_name b hb _ hp hpt]
    dsimp only
    rw [splitFieldSuffix_no_hash p hh]
  · intro ref d hc hh
    unfold parseSecretRef
    rw [matchBackendRefHead_no_colon ref hc]
    dsimp only
    rw [splitFieldSuffix_no_hash ref hh]

/-- Witness for `parseSecretRef_roundtrip` at concrete references. -/
theorem parseSecretRef_roundtrip_witness :
    parseSecretRef ("vault".toList ++ ':' :: ("secret/data/app".toList ++ '#' :: "token".toList))
        .pass = ⟨.vault, "secret/data/app".toList, some "token".toList⟩ ∧
    parseSecretRef ("pass".toList ++ ':' :: "openclaw/api-key".toList) .file
        = ⟨.pass, "openclaw/api-key".toList, none⟩ ∧
    parseSecretRef "plain/path".toList .pass = ⟨.pass, "plain/path".toList, none⟩ := by
  refine ⟨?_, ?_, ?_⟩
  · exact parseSecretRef_roundtrip.1 .vault (by decide) _ _ .pass (by decide) (by decide)
      (by decide) (by decide)
  · exact parseSecretRef_roundtrip.2.1 .pass (by decide) _ .file (by decide) (by decide)
      (by decide)
  · exact parseSecretRef_roundtrip.2.2 _ .pass (by decide) (by decide)

/-- C4 counterexample: the claim includes `ganesh` in the recognised backend
set, but `parseSecretRef`'s prefix regex omits it, so `ganesh:api/key#token`
parses with the *default* backend and the whole `ganesh:api/key` kept in the
path, not as backend `ganesh` with path `api/key`. -/
theorem parseSecretRef_ganesh_counterexample :
    parseSecretRef "ganesh:api/key#token".toList .pass
      = ⟨.pass, "ganesh:api/key".toList, some "token".toList⟩ ∧
    parseSecretRef "ganesh:api/key#token".toList .pass
      ≠ ⟨.ganesh, "api/key".toList, some "token".toList⟩ := by
  constructor
  · decide
  · decide

-- ==========================================================================
-- Command policy gate (src/infra/ganesh-policy-gate.ts)
-- ==========================================================================

/-- JS runtime values flowing through the policy gate's evaluation context
(`details` object, `getNestedValue`, `evaluateCondition`).  `null` does not
occur in any embedded context, so it is not modelled separately from
`undefined`. -/
inductive JsVal where
  | undefined
  | str (s : Str)
  | num (n : Int)
  | arr (elems : List JsVal)
  | obj (fields : List (Str × JsVal))

/-- JS strict equality `===` restricted to the values above.  Arrays and
objects compare by reference in JS; a policy-file value and a context value
are never the same reference, so those cases are `false`. -/
def jsStrictEq : JsVal → JsVal → Bool
  | .undefined, .undefined => true
  | .str a, .str b => a = b
  | .num a, .num b => a = b
  | _, _ => false

/-- `String.prototype.split` on a single-character separator. -/
def splitOnChar (sep : Char) : Str → List Str
  | [] => [[]]
  | c :: cs =>
    if c = sep then [] :: splitOnChar sep cs
    else
      match splitOnChar sep cs with
      | [] => [[c]]
      | h :: t => (c :: h) :: t

/-- Is `part` the canonical decimal representation of some array index?
(JS array property lookup only hits an element for the canonical numeric
string: no leading zeroes except `"0"` itself.) -/
def canonicalIndex (part : Str) : Option Nat :=
  if part = [] then none
  else if part.all (fun c => '0' ≤ c && c ≤ '9') then
    if part.head? = some '0' && part.length ≠ 1 then none
    else some (part.foldl (fun acc c => acc * 10 + (c.toNat - '0'.toNat)) 0)
  else none

/-- One step of `getNestedValue`: JS `current[part]` for an object step;
non-objects (and a missing key) give `undefined`.  Array bookkeeping
properties such as `length` are not modelled — no embedded evaluation
context contains arrays. -/
def jsLookupField (v : JsVal) (part : Str) : JsVal :=
  match v with
  | .obj kvs => ((kvs.find? (fun kv => kv.1 = part)).map (·.2)).getD .undefined
  | .arr l =>
    match canonicalIndex part with
    | some i => l.getD i .undefined
    | none => .undefined
  | _ => .undefined

/-- `getNestedValue` from the policy gate: walk a dot-separated field path
through the context object, yielding `undefined` as soon as a non-object is
reached. -/
def getNestedValue (obj : JsVal) (fieldPath : Str) : JsVal :=
  (splitOnChar '.' fieldPath).foldl jsLookupField obj

/-- Condition operators (`PolicyCondition.op`). -/
inductive CondOp where
  | eq | neq | contains | matches | inOp | gt | lt
deriving DecidableEq, Repr

/-- `PolicyCondition.value : string | number | string[]`. -/
inductive CondValue where
  | str (s : Str)
  | num (n : Int)
  | strs (l : List Str)
deriving DecidableEq, Repr

/-- The JS value of a condition's configured comparison value. -/
def condValueToJs : CondValue → JsVal
  | .str s => .str s
  | .num n => .num n
  | .strs l => .arr (l.map .str)

/-- `PolicyCondition` from the policy gate. -/
structure PolicyCondition where
  field : Str
  op : CondOp
  value : CondValue
deriving DecidableEq, Repr

/-- JS `hay.includes(needle)` for strings: contiguous substring test. -/
def containsSub : Str → Str → Bool
  | [], needle => startsWithChars needle []
  | c :: t, needle => startsWithChars needle (c :: t) || containsSub t needle

/-- `evaluateCondition` from the policy gate.  `regexCompile` is the external
JS regex engine: `none` models a pattern whose `new RegExp` throws (the
gate's own `try/catch` turns that into a non-match). -/
def evaluateCondition (regexCompile : Str → Option (Str → Bool))
    (condition : PolicyCondition) (details : JsVal) : Bool :=
  let value := getNestedValue details condition.field
  match condition.op with
  | .eq => jsStrictEq value (condValueToJs condition.value)
  | .neq => !(jsStrictEq value (condValueToJs condition.value))
  | .contains =>
    match value, condition.value with
    | .str v, .str s => containsSub v s
    | .arr l, _ => l.any (fun x => jsStrictEq x (condValueToJs condition.value))
    | _, _ => false
  | .matches =>
    match value, condition.value with
    | .str v, .str pat =>
      match regexCompile pat with
      | some test => test v
      | none => false
    | _, _ => false
  | .inOp =>
    match condition.value with
    | .strs l =>
      match value with
      | .str v => l.any (fun s => s = v)
      | _ => false
    | _ => false
  | .gt =>
    match value, condition.value with
    | .num a, .num b => a > b
    | _, _ => false
  | .lt =>
    match value, condition.value with
    | .num a, .num b => a < b
    | _, _ => false

/-- `PolicyRule` from the policy gate. -/
structure PolicyRule where
  id : Str
  description : Option Str
  subject : Str
  conditions : List PolicyCondition
  action : Str
  requiredTier : Option Int
  priority : Option Int
  enabled : Option Bool
deriving DecidableEq, Repr

/-- `PolicyConfig` from the policy gate. -/
structure PolicyConfig where
  version : Int
  name : Option Str
  defaultAction : Str
  defaultTier : Option Int
  rules : List PolicyRule
deriving DecidableEq, Repr

/-- `PolicyGateDecision`: `"allow" | "deny" | "ask"`. -/
inductive PolicyGateDecision where
  | allow | deny | ask
deriving DecidableEq, Repr

/-- `PolicyGateResult` from the policy gate. -/
structure PolicyGateResult where
  decision : PolicyGateDecision
  reason : Str
  matchedRule : Option Str
  evaluatedAt : Str
deriving DecidableEq, Repr

/-- One audit record (`AuditEntry`); `event` is always
`"policy_gate_check"`. -/
structure AuditEntry where
  timestamp : Str
  event : Str
  command : Str
  decision : PolicyGateDecision
  reason : Str
  matchedRule : Option Str
  agentId : Option Str
  sessionKey : Option Str
  host : Option Str
deriving DecidableEq, Repr

/-- JS `s || dflt` for strings: the empty string is falsy. -/
def jsOrStr (s : Str) (dflt : Str) : Str := if s = [] then dflt else s

/-- JS `o || dflt` for an optional string (`undefined` and `""` both
falsy). -/
def jsOrOptStr (o : Option Str) (dflt : Str) : Str :=
  match o with
  | some s => jsOrStr s dflt
  | none => dflt

/-- `normalizeAction`: lower-case, `"allow"`/`"deny"` map to themselves,
everything else (including `"mfa"` and unknown strings) maps to ask. -/
def normalizeAction (action : Str) : PolicyGateDecision :=
  let lower := action.map charToLower
  if lower = "allow".toList then .allow
  else if lower = "deny".toList then .deny
  else .ask

/-- One iteration of the leading-environment-assignment regex
`(\w+=\S+\s+)`: a word, `=`, a non-space run, then at least one space;
returns the remainder on success. -/
def stripOneAssign (s : Str) : Option Str :=
  let w := s.takeWhile (isWordChar ·)
  if w = [] then none
  else
    match s.drop w.length with
    | '=' :: rest2 =>
      let v := rest2.takeWhile (fun c => !(jsIsSpace c))
      if v = [] then none
      else
        let rest3 := rest2.drop v.length
        let sp := rest3.takeWhile (jsIsSpace ·)
        if sp = [] then none else some (rest3.drop sp.length)
    | _ => none

/-- The repetition `^(\w+=\S+\s+)+` of `extractBaseCommand` (fuelled by the
string length; each successful iteration consumes at least one character). -/
def stripEnvAssigns : Nat → Str → Str
  | 0, s => s
  | fuel + 1, s =>
    match stripOneAssign s with
    | some rest => stripEnvAssigns fuel rest
    | none => s

/-- One iteration of the sudo-flag regex `(-\S+\s+)`: `-`, a non-space run,
then at least one space. -/
def stripOneFlag (s : Str) : Option Str :=
  match s with
  | '-' :: rest =>
    let v := rest.takeWhile (fun c => !(jsIsSpace c))
    if v = [] then none
    else
      let rest2 := rest.drop v.length
      let sp := rest2.takeWhile (jsIsSpace ·)
      if sp = [] then none else some (rest2.drop sp.length)
  | _ => none

/-- The repetition `(-\S+\s+)*` after a sudo prefix. -/
def stripFlags : Nat → Str → Str
  | 0, s => s
  | fuel + 1, s =>
    match stripOneFlag s with
    | some rest => stripFlags fuel rest
    | none => s

/-- The `^sudo\s+(-\S+\s+)*` replacement of `extractBaseCommand`: only fires
when `sudo` is followed by whitespace. -/
def stripSudo (s : Str) : Str :=
  if startsWithChars "sudo".toList s then
    let rest := s.drop 4
    let sp := rest.takeWhile (jsIsSpace ·)
    if sp = [] then s else stripFlags rest.length (rest.drop sp.length)
  else s

/-- Node's POSIX `path.basename` (no extension argument): ignore trailing
slashes, take the last path component; an all-slash path gives `/`. -/
def basenameOf (s : Str) : Str :=
  let stripped := (s.reverse.dropWhile (· = '/')).reverse
  if stripped = [] then (if s = [] then [] else ['/'])
  else (stripped.reverse.takeWhile (· ≠ '/')).reverse

/-- `extractBaseCommand` from the policy gate: trim, strip leading
environment assignments, strip a `sudo` prefix with its flags, take the
first word, strip its directory path. -/
def extractBaseCommand (command : Str) : Str :=
  let trimmed := jsTrim command
  let withoutEnv := stripEnvAssigns trimmed.length trimmed
  let withoutSudo := stripSudo withoutEnv
  let firstWord := withoutSudo.takeWhile (fun c => !(jsIsSpace c))
  if firstWord = [] then trimmed else basenameOf firstWord

/-- Optional context strings become JS string values or `undefined`. -/
def optJs : Option Str → JsVal
  | some s => .str s
  | none => .undefined

/-- The optional context argument of `evaluateCommand`. -/
structure GateOpts where
  agentId : Option Str
  sessionKey : Option Str
  host : Option Str
  cwd : Option Str
deriving DecidableEq, Repr

/-- The `details` object `evaluateCommand` builds for condition matching. -/
def gateDetails (command : Str) (opts : GateOpts) : JsVal :=
  .obj [("command".toList, .str command),
        ("baseCommand".toList, .str (extractBaseCommand command)),
        ("name".toList, .str (extractBaseCommand command)),
        ("host".toList, optJs opts.host),
        ("cwd".toList, optJs opts.cwd),
        ("agentId".toList, optJs opts.agentId)]

/-- The sort key `rule.priority || 0` (in the integer model `0` is the only
falsy number, so this is `getD 0`). -/
def rulePriority (r : PolicyRule) : Int := r.priority.getD 0

/-- The rule filter of `evaluateCommand`:
`r.subject === "command" && r.enabled !== false`. -/
def ruleEligible (r : PolicyRule) : Bool :=
  r.subject = "command".toList && !(r.enabled = some false)

/-- `rule.conditions.every((c) => evaluateCondition(c, details))`. -/
def ruleConditionsHold (regexCompile : Str → Option (Str → Bool))
    (details : JsVal) (r : PolicyRule) : Bool :=
  r.conditions.all (fun c => evaluateCondition regexCompile c details)

/-- Stable descending insertion (by `rulePriority`): the inserted element
goes before every element that does not have strictly greater priority, so
earlier-declared rules stay first among equal priorities. -/
def insertRuleDesc (x : PolicyRule) : List PolicyRule → List PolicyRule
  | [] => [x]
  | h :: t =>
    if rulePriority x < rulePriority h then h :: insertRuleDesc x t
    else x :: h :: t

/-- The stable descending sort
`toSorted((a, b) => (b.priority || 0) - (a.priority || 0))` of
`evaluateCommand` (`Array.prototype.toSorted` is stable by the ECMAScript
specification; a stable insertion sort realises the same list). -/
def sortRulesDesc : List PolicyRule → List PolicyRule
  | [] => []
  | x :: t => insertRuleDesc x (sortRulesDesc t)

/-- The gate's external inputs for one evaluation: the enable switch
(`isPolicyGateEnabled`), the policy the cached loader yields (`loadPolicy`
returns `null` both when the file is absent and when reading/parsing it
fails — it catches internally), the regex engine, and the timestamp. -/
structure GateEnv where
  enabled : Bool
  policy : Option PolicyConfig
  regexCompile : Str → Option (Str → Bool)
  now : Str

/-- `evaluateCommand` from `src/infra/ganesh-policy-gate.ts`.  Returns the
`PolicyGateResult` together with the list of audit entries the call hands to
`writeAudit` (the on-disk append is an external effect; an entry in this
list is exactly one `writeAudit(...)` call). -/
def evaluateCommand (env : GateEnv) (command : Str) (opts : GateOpts) :
    PolicyGateResult × List AuditEntry :=
  if !env.enabled then
    ({ decision := .allow, reason := "Policy gate disabled".toList,
       matchedRule := none, evaluatedAt := env.now }, [])
  else
    match env.policy with
    | none =>
      ({ decision := .allow, reason := "No policy config found".toList,
         matchedRule := none, evaluatedAt := env.now }, [])
    | some policy =>
      let details := gateDetails command opts
      let commandRules := sortRulesDesc (policy.rules.filter ruleEligible)
      match commandRules.find? (ruleConditionsHold env.regexCompile details) with
      | some rule =>
        let action := normalizeAction rule.action
        let reason := jsOrOptStr rule.description ("Matched rule: ".toList ++ rule.id)
        ({ decision := action, reason := reason, matchedRule := some rule.id,
           evaluatedAt := env.now },
         [{ timestamp := env.now, event := "policy_gate_check".toList,
            command := command, decision := action, reason := reason,
            matchedRule := some rule.id, agentId := opts.agentId,
            sessionKey := opts.sessionKey, host := opts.host }])
      | none =>
        let defaultAction := normalizeAction (jsOrStr policy.defaultAction "ask".toList)
        ({ decision := defaultAction,
           reason := "No matching rule, using default policy".toList,
           matchedRule := none, evaluatedAt := env.now },
         [{ timestamp := env.now, event := "policy_gate_check".toList,
            command := command, decision := defaultAction,
            reason := "No matching rule, using default policy".toList,
            matchedRule := none, agentId := opts.agentId,
            sessionKey := opts.sessionKey, host := opts.host }])

/-- Specification-level rule selection, written from the spec's words: among
the rules satisfying `matches` (eligibility plus all conditions), pick the
one with the highest priority, breaking ties in favour of the earliest
declared.  Used as the comparison point for `evaluateCommand`'s
filter/stable-sort/first-match implementation. -/
def specSelect (m : PolicyRule → Bool) : List PolicyRule → Option PolicyRule
  | [] => none
  | r :: t =>
    let rest := specSelect m t
    if m r then
      match rest with
      | none => some r
      | some best => if rulePriority r < rulePriority best then some best else some r
    else rest

-- ==========================================================================
-- Lemmas: the filter / stable sort / first-match pipeline realises the
-- highest-priority-first-declared selection rule
-- ==========================================================================

/-- Descending order by `rulePriority`. -/
def SortedDesc (l : List PolicyRule) : Prop :=
  List.Pairwise (fun a b => rulePriority b ≤ rulePriority a) l

theorem mem_insertRuleDesc {x y : PolicyRule} {l : List PolicyRule} :
    y ∈ insertRuleDesc x l ↔ y = x ∨ y ∈ l := by
  induction l with
  | nil => simp [insertRuleDesc]
  | cons h t ih =>
    unfold insertRuleDesc
    by_cases hc : rulePriority x < rulePriority h
    · simp only [if_pos hc, List.mem_cons, ih]
      tauto
    · simp only [if_neg hc, List.mem_cons]

theorem sortedDesc_insert {x : PolicyRule} {l : List PolicyRule}
    (hs : SortedDesc l) : SortedDesc (insertRuleDesc x l) := by
  induction l with
  | nil => simp [insertRuleDesc, SortedDesc]
  | cons h t ih =>
    have hs' := List.pairwise_cons.mp hs
    unfold insertRuleDesc
    by_cases hc : rulePriority x < rulePriority h
    · simp only [if_pos hc]
      refine List.pairwise_cons.mpr ⟨?_, ih hs'.2⟩
      intro b hb
      rcases mem_insertRuleDesc.mp hb with rfl | hb'
      · exact le_of_lt hc
      · exact hs'.1 b hb'
    · simp only [if_neg hc]
      refine List.pairwise_cons.mpr ⟨?_, hs⟩
      intro b hb
      rcases List.mem_cons.mp hb with rfl | hb'
      · exact not_lt.mp hc
      · exact le_trans (hs'.1 b hb') (not_lt.mp hc)

theorem sortedDesc_sortRules (l : List PolicyRule) : SortedDesc (sortRulesDesc l) := by
  induction l with
  | nil => simp [sortRulesDesc, SortedDesc]
  | cons x t ih => exact sortedDesc_insert ih

/-- How the first match of an insertion relates to the first match of the
sorted remainder. -/
def selCombine (m : PolicyRule → Bool) (x : PolicyRule) :
    Option PolicyRule → Option PolicyRule
  | some y =>
    if rulePriority x < rulePriority y then some y
    else if m x then some x else some y
  | none => if m x then some x else none

theorem find_insertRuleDesc (m : PolicyRule → Bool) (x : PolicyRule)
    {l : List PolicyRule} (hs : SortedDesc l) :
    (insertRuleDesc x l).find? m = selCombine m x (l.find? m) := by
  induction l with
  | nil =>
    cases hmx : m x <;> simp [insertRuleDesc, selCombine, List.find?, hmx]
  | cons h t ih =>
    have hs' := List.pairwise_cons.mp hs
    unfold insertRuleDesc
    by_cases hc : rulePriority x < rulePriority h
    · simp only [if_pos hc]
      cases hmh : m h with
      | true =>
        rw [List.find?_cons_of_pos _ hmh, List.find?_cons_of_pos _ hmh]
        simp [selCombine, hc]
      | false =>
        rw [List.find?_cons_of_neg _ (by simp [hmh]),
          List.find?_cons_of_neg _ (by simp [hmh])]
        exact ih hs'.2
    · simp only [if_neg hc]
      have hxh : rulePriority h ≤ rulePriority x := not_lt.mp hc
      cases hmx : m x with
      | true =>
        rw [List.find?_cons_of_pos _ hmx]
        cases hfm : (h :: t).find? m with
        | none => simp [selCombine, hmx]
        | some y =>
          have hy : y ∈ h :: t := List.mem_of_find?_eq_some hfm
          have hyp : rulePriority y ≤ rulePriority x := by
            rcases List.mem_cons.mp hy with rfl | hy'
            · exact hxh
            · exact le_trans (hs'.1 y hy') hxh
          simp [selCombine, hmx, not_lt.mpr hyp]
      | false =>
        rw [List.find?_cons_of_neg _ (by simp [hmx])]
        cases hfm : (h :: t).find? m with
        | none => simp [selCombine, hmx]
        | some y =>
          by_cases hp : rulePriority x < rulePriority y <;>
            simp [selCombine, hmx, hp]

theorem find_sortRulesDesc (m : PolicyRule → Bool) (l : List PolicyRule) :
    (sortRulesDesc l).find? m = specSelect m l := by
  induction l with
  | nil => rfl
  | cons x t ih =>
    show (insertRuleDesc x (sortRulesDesc t)).find? m = _
    rw [find_insertRuleDesc m x (sortedDesc_sortRules t), ih]
    cases hrest : specSelect m t with
    | none => cases hmx : m x <;> simp [selCombine, specSelect, hmx, hrest]
    | some y =>
      cases hmx : m x with
      | true =>
        by_cases hp : rulePriority x < rulePriority y <;>
          simp [selCombine, specSelect, hmx, hrest, hp]
      | false => simp [selCombine, specSelect, hmx, hrest]

theorem specSelect_filter (e m : PolicyRule → Bool) (l : List PolicyRule) :
    specSelect m (l.filter e) = specSelect (fun r => e r && m r) l := by
  induction l with
  | nil => rfl
  | cons x t ih =>
    cases he : e x with
    | true =>
      rw [List.filter_cons_of_pos he]
      show specSelect m (x :: t.filter e) = _
      simp only [specSelect, ih, he, Bool.true_and]
    | false =>
      rw [List.filter_cons_of_neg (by simp [he])]
      rw [ih]
      simp [specSelect, he]

-- ==========================================================================
-- C1: rule selection of evaluateCommand
-- ==========================================================================

/-- C1: with the gate enabled and a policy loaded, `evaluateCommand`
considers only rules with subject `"command"` whose `enabled` flag is not
`false` (`ruleEligible`), requires all conditions of a rule to hold
(`ruleConditionsHold` is a universally-quantified `all`), and returns the
decision of the rule picked by `specSelect` — the highest-priority
fully-matching rule with ties broken in favour of the earliest declared —
falling back to the policy's declared default action (normalised, empty
defaulting to ask) when no rule matches. -/
theorem evaluateCommand_rule_selection (env : GateEnv) (command : Str)
    (opts : GateOpts) (p : PolicyConfig)
    (henabled : env.enabled = true) (hpolicy : env.policy = some p) :
    (∀ r : PolicyRule,
      specSelect (fun r => ruleEligible r &&
          ruleConditionsHold env.regexCompile (gateDetails command opts) r)
          p.rules = some r →
      (evaluateCommand env command opts).1.decision = normalizeAction r.action ∧
      (evaluateCommand env command opts).1.matchedRule = some r.id) ∧
    (specSelect (fun r => ruleEligible r &&
          ruleConditionsHold env.regexCompile (gateDetails command opts) r)
          p.rules = none →
      (evaluateCommand env command opts).1.decision
          = normalizeAction (jsOrStr p.defaultAction "ask".toList) ∧
      (evaluateCommand env command opts).1.matchedRule = none) := by
  have hfind : (sortRulesDesc (p.rules.filter ruleEligible)).find?
      (ruleConditionsHold env.regexCompile (gateDetails command opts)) =
      specSelect (fun r => ruleEligible r &&
        ruleConditionsHold env.regexCompile (gateDetails command opts) r) p.rules := by
    rw [find_sortRulesDesc, specSelect_filter]
  constructor
  · intro r hr
    unfold evaluateCommand
    rw [henabled, hpolicy]
    dsimp only
    rw [hfind, hr]
    exact ⟨rfl, rfl⟩
  · intro hr
    unfold evaluateCommand
    rw [henabled, hpolicy]
    dsimp only
    rw [hfind, hr]
    exact ⟨rfl, rfl⟩

/-- The spec's own priority example: a priority-1 deny rule declared before
a priority-10 allow rule, both matching `baseCommand == "git"`. -/
def demoRuleLow : PolicyRule :=
  { id := "low-priority-deny".toList, description := none,
    subject := "command".toList,
    conditions := [⟨"baseCommand".toList, .eq, .str "git".toList⟩],
    action := "deny".toList, requiredTier := none,
    priority := some 1, enabled := some true }

/-- The competing priority-10 allow rule. -/
def demoRuleHigh : PolicyRule :=
  { id := "high-priority-allow".toList, description := none,
    subject := "command".toList,
    conditions := [⟨"baseCommand".toList, .eq, .str "git".toList⟩],
    action := "allow".toList, requiredTier := none,
    priority := some 10, enabled := some true }

/-- Policy with the two demo rules, low priority declared first. -/
def demoPolicy : PolicyConfig :=
  { version := 1, name := none, defaultAction := "deny".toList,
    defaultTier := none, rules := [demoRuleLow, demoRuleHigh] }

/-- Gate environment with the demo policy loaded and the gate enabled. -/
def demoGateEnv : GateEnv :=
  { enabled := true, policy := some demoPolicy,
    regexCompile := fun _ => none, now := [] }

/-- Witness for `evaluateCommand_rule_selection`: `git status` against the
demo policy resolves to the priority-10 allow rule even though the deny rule
is declared first. -/
theorem evaluateCommand_rule_selection_witness :
    (evaluateCommand demoGateEnv "git status".toList ⟨none, none, none, none⟩).1.decision
        = .allow ∧
    (evaluateCommand demoGateEnv "git status".toList ⟨none, none, none, none⟩).1.matchedRule
        = some "high-priority-allow".toList := by
  have h := (evaluateCommand_rule_selection demoGateEnv "git status".toList
      ⟨none, none, none, none⟩ demoPolicy rfl rfl).1 demoRuleHigh (by decide)
  exact ⟨h.1.trans (by decide), h.2.trans (by decide)⟩

-- ==========================================================================
-- C3: behaviour when the policy file is absent or unparseable
-- ==========================================================================

/-- C3 (code bug): with the gate enabled and `loadPolicy()` yielding `null`
(the policy file is absent, or reading/parsing it failed — `loadPolicy`
catches internally and returns `null` in both cases), `evaluateCommand`
returns decision allow with reason "No policy config found" but performs
*zero* `writeAudit` calls: the fail-open event is silent, contradicting the
claim (and the module header's "Auditable: all decisions logged"). -/
theorem evaluateCommand_absent_policy_no_audit :
    evaluateCommand
        { enabled := true, policy := none, regexCompile := fun _ => none, now := [] }
        "ls".toList ⟨none, none, none, none⟩
      = ({ decision := .allow, reason := "No policy config found".toList,
           matchedRule := none, evaluatedAt := [] }, []) := rfl

-- ==========================================================================
-- Secret resolution dispatcher (src/secrets/resolver.ts, resolveSecret)
-- ==========================================================================

/-- A resolver cache entry: `{ value, resolvedAt }`. -/
structure CacheEntry where
  value : Str
  resolvedAt : Int
deriving DecidableEq, Repr

/-- `SecretResolutionResult` from `src/secrets/types.ts`; optional fields
are `Option`s (absent = `none`). -/
structure SecretResolutionResult where
  ok : Bool
  value : Option Str
  error : Option Str
  cached : Option Bool
deriving DecidableEq, Repr

/-- `SecretsBackendConfig`, reduced to the one field `resolveSecret` reads
(`config.backend`); the per-backend option objects only parameterise the
construction of the external backend, which the oracles below stand for. -/
structure SecretsBackendConfig where
  backend : SecretsBackendType
deriving DecidableEq, Repr

/-- The module-level mutable state of `resolver.ts`: the secrets cache and
the set of constructed backend-instance types (`backendInstances` keys). -/
structure ResolverState where
  cache : List (Str × CacheEntry)
  instances : List SecretsBackendType
deriving DecidableEq, Repr

/-- External inputs of one `resolveSecret` call: the backend instance's
`isAvailable`/`resolve` methods (a rejected promise is `Except.error` with
the error message, caught by `resolveSecret`'s `try/catch`) and `Date.now()`.
The source calls `Date.now()` for the freshness check and again for the
cache write; the sub-millisecond difference is collapsed into one value. -/
structure ResolverEnv where
  isAvailable : SecretsBackendType → Except Str Bool
  backendResolve : SecretsBackendType → Str → Option Str → Except Str (Option Str)
  now : Int

/-- `CACHE_TTL_MS = 5 * 60 * 1000`. -/
def cacheTtlMs : Int := 5 * 60 * 1000

/-- `Map.get` on the association-list model of the cache. -/
def lookupAssoc (cache : List (Str × CacheEntry)) (key : Str) : Option CacheEntry :=
  (cache.find? (fun kv => kv.1 = key)).map (·.2)

/-- `Map.set` on the association-list model of the cache. -/
def setAssoc : List (Str × CacheEntry) → Str → CacheEntry → List (Str × CacheEntry)
  | [], k, v => [(k, v)]
  | (k', v') :: t, k, v =>
    if k' = k then (k, v) :: t else (k', v') :: setAssoc t k v

/-- One observable backend interaction of a `resolveSecret` call. -/
inductive BackendCall where
  | availabilityCheck (b : SecretsBackendType)
  | resolveCall (b : SecretsBackendType) (path : Str) (field : Option Str)
deriving DecidableEq, Repr

/-- `createBackend`: only the pass backend constructs; vault/keyring/env are
explicit "not yet implemented" throws, `file` refuses resolution, and the
`default` arm throws "Unknown secrets backend" (which is what a `ganesh`
config reaches — `createBackend` has no `ganesh` case). -/
def createBackendOutcome : SecretsBackendType → Except Str Unit
  | .pass => .ok ()
  | .vault => .error "Vault backend not yet implemented".toList
  | .keyring => .error "Keyring backend not yet implemented".toList
  | .env => .error "Env backend not yet implemented".toList
  | .file => .error "File backend does not support resolution".toList
  | .ganesh => .error "Unknown secrets backend: ganesh".toList

/-- `getBackend`: reuse a cached instance or construct one, recording it in
`backendInstances`; a construction throw leaves the instance set unchanged. -/
def getBackendOutcome (st : ResolverState) (b : SecretsBackendType) :
    Except Str ResolverState :=
  if b ∈ st.instances then .ok st
  else
    match createBackendOutcome b with
    | .ok _ => .ok { st with instances := st.instances ++ [b] }
    | .error e => .error e

/-- The cache lookup at the top of `resolveSecret`: a hit only counts when
`Date.now() - resolvedAt < CACHE_TTL_MS`. -/
def cacheFreshHit (cache : List (Str × CacheEntry)) (now : Int) (ref : Str) :
    Option Str :=
  match lookupAssoc cache ref with
  | some e => if now - e.resolvedAt < cacheTtlMs then some e.value else none
  | none => none

/-- The body of `resolveSecret` after the cache check and parse (the `try`
block): obtain the backend, check availability, resolve, cache on success.
Returns the result, the updated module state, and the backend calls made. -/
def resolveParsed (env : ResolverEnv) (st : ResolverState) (ref : Str)
    (parsed : SecretRef) :
    SecretResolutionResult × ResolverState × List BackendCall :=
  match getBackendOutcome st parsed.backend with
  | .error msg =>
    ({ ok := false, value := none, error := some msg, cached := none }, st, [])
  | .ok st' =>
    match env.isAvailable parsed.backend with
    | .error msg =>
      ({ ok := false, value := none, error := some msg, cached := none }, st',
       [.availabilityCheck parsed.backend])
    | .ok false =>
      ({ ok := false, value := none,
         error := some ("Backend \"".toList ++ backendName parsed.backend
           ++ "\" is not available".toList), cached := none }, st',
       [.availabilityCheck parsed.backend])
    | .ok true =>
      match env.backendResolve parsed.backend parsed.path parsed.field with
      | .error msg =>
        ({ ok := false, value := none, error := some msg, cached := none }, st',
         [.availabilityCheck parsed.backend,
          .resolveCall parsed.backend parsed.path parsed.field])
      | .ok none =>
        ({ ok := false, value := none,
           error := some ("Secret not found: ".toList ++ ref), cached := none }, st',
         [.availabilityCheck parsed.backend,
          .resolveCall parsed.backend parsed.path parsed.field])
      | .ok (some v) =>
        ({ ok := true, value := some v, error := none, cached := none },
         { st' with cache := setAssoc st'.cache ref ⟨v, env.now⟩ },
         [.availabilityCheck parsed.backend,
          .resolveCall parsed.backend parsed.path parsed.field])

/-- The no-fresh-hit path of `resolveSecret`: parse (defaulting the backend
to `config?.backend || "pass"`) and run the `try` block. -/
def resolveSecretMiss (env : ResolverEnv) (st : ResolverState) (ref : Str)
    (config : Option SecretsBackendConfig) :
    SecretResolutionResult × ResolverState × List BackendCall :=
  resolveParsed env st ref
    (parseSecretRef ref ((config.map (·.backend)).getD .pass))

/-- `resolveSecret` from `src/secrets/resolver.ts`. -/
def resolveSecret (env : ResolverEnv) (st : ResolverState) (ref : Str)
    (config : Option SecretsBackendConfig) :
    SecretResolutionResult × ResolverState × List BackendCall :=
  match cacheFreshHit st.cache env.now ref with
  | some v =>
    ({ ok := true, value := some v, error := none, cached := some true }, st, [])
  | none => resolveSecretMiss env st ref config

theorem lookup_setAssoc (c : List (Str × CacheEntry)) (k : Str) (e : CacheEntry) :
    lookupAssoc (setAssoc c k e) k = some e := by
  induction c with
  | nil => simp [setAssoc, lookupAssoc, List.find?]
  | cons kv t ih =>
    obtain ⟨k', v'⟩ := kv
    unfold setAssoc
    by_cases hk : k' = k
    · simp [hk, lookupAssoc, List.find?]
    · simp only [if_neg hk]
      unfold lookupAssoc at ih ⊢
      rw [List.find?_cons_of_neg _ (by simp [hk])]
      exact ih

theorem resolveParsed_failure_parts (env : ResolverEnv) (st : ResolverState)
    (ref : Str) (parsed : SecretRef) :
    (resolveParsed env st ref parsed).1.ok = false →
    (resolveParsed env st ref parsed).1.value = none ∧
    (resolveParsed env st ref parsed).1.error ≠ none := by
  unfold resolveParsed
  cases hgb : getBackendOutcome st parsed.backend with
  | error msg => intro _; simp
  | ok st' =>
    cases hav : env.isAvailable parsed.backend with
    | error msg => intro _; simp
    | ok b =>
      cases b with
      | false => intro _; simp
      | true =>
        cases hres : env.backendResolve parsed.backend parsed.path parsed.field with
        | error msg => intro _; simp
        | ok ov =>
          cases ov with
          | none => intro _; simp
          | some v => intro h; simp at h

-- ==========================================================================
-- C9: resolveSecret is total and failures carry no value but an error
-- ==========================================================================

/-- C9: `resolveSecret` is a total function of its inputs in this embedding —
every fallible step (backend construction, availability check, backend
resolve, including rejected promises, modelled by `Except.error`) is caught
and turned into a structured result, never a fault — and whenever the result
has `ok = false`, `value` is absent and `error` is populated. -/
theorem resolveSecret_failure_shape (env : ResolverEnv) (st : ResolverState)
    (ref : Str) (config : Option SecretsBackendConfig) :
    (resolveSecret env st ref config).1.ok = false →
    (resolveSecret env st ref config).1.value = none ∧
    (resolveSecret env st ref config).1.error ≠ none := by
  unfold resolveSecret
  cases hhit : cacheFreshHit st.cache env.now ref with
  | some v => intro h; simp at h
  | none =>
    unfold resolveSecretMiss
    exact resolveParsed_failure_parts env st ref _

/-- Witness for `resolveSecret_failure_shape`: a `vault:` reference fails
(backend not implemented) with no value and a populated error. -/
theorem resolveSecret_failure_shape_witness :
    ((resolveSecret
        { isAvailable := fun _ => .ok false, backendResolve := fun _ _ _ => .ok none,
          now := 0 }
        ⟨[], []⟩ "vault:secret/app".toList none).1.value = none ∧
     (resolveSecret
        { isAvailable := fun _ => .ok false, backendResolve := fun _ _ _ => .ok none,
          now := 0 }
        ⟨[], []⟩ "vault:secret/app".toList none).1.error ≠ none) :=
  resolveSecret_failure_shape
    { isAvailable := fun _ => .ok false, backendResolve := fun _ _ _ => .ok none,
      now := 0 }
    ⟨[], []⟩ "vault:secret/app".toList none (by decide)

-- ==========================================================================
-- C5: cache hit within the TTL, expiry at or beyond it
-- ==========================================================================

theorem resolveParsed_success_state (env : ResolverEnv) (st : ResolverState)
    (ref : Str) (parsed : SecretRef) (v : Str)
    (h : (resolveParsed env st ref parsed).1
      = { ok := true, value := some v, error := none, cached := none }) :
    ∃ st' : ResolverState, (resolveParsed env st ref parsed).2.1
      = { cache := setAssoc st'.cache ref ⟨v, env.now⟩,
          instances := st'.instances } := by
  unfold resolveParsed at h ⊢
  cases hgb : getBackendOutcome st parsed.backend with
  | error msg => rw [hgb] at h; simp at h
  | ok st' =>
    rw [hgb] at h
    cases hav : env.isAvailable parsed.backend with
    | error msg => rw [hav] at h; simp at h
    | ok b =>
      rw [hav] at h
      cases b with
      | false => simp at h
      | true =>
        cases hres : env.backendResolve parsed.backend parsed.path parsed.field with
        | error msg => rw [hres] at h; simp at h
        | ok ov =>
          rw [hres] at h
          cases ov with
          | none => simp at h
          | some w =>
            simp only [SecretResolutionResult.mk.injEq, Option.some.injEq] at h
            obtain ⟨-, hwv, -⟩ := h
            subst hwv
            exact ⟨st', rfl⟩

/-- C5: if `resolveSecret` succeeds by a fresh (non-cached) resolution, a
second call for the exact same reference string whose `Date.now()` is less
than `CACHE_TTL_MS` later returns the identical value with `cached := true`,
leaves the state unchanged and performs *no* backend call (no availability
check and no backend resolve — the call list is empty); and any cache entry
whose age is at least the TTL is ignored: the call behaves exactly like the
re-resolving miss path. -/
theorem resolveSecret_cache_ttl (env₁ env₂ : ResolverEnv) (st : ResolverState)
    (ref : Str) (config : Option SecretsBackendConfig) (v : Str)
    (h1 : (resolveSecret env₁ st ref config).1
        = { ok := true, value := some v, error := none, cached := none })
    (h2 : env₂.now - env₁.now < cacheTtlMs) :
    (resolveSecret env₂ (resolveSecret env₁ st ref config).2.1 ref config
      = ({ ok := true, value := some v, error := none, cached := some true },
         (resolveSecret env₁ st ref config).2.1, [])) ∧
    (∀ (env₃ : ResolverEnv) (st₃ : ResolverState) (e : CacheEntry),
      lookupAssoc st₃.cache ref = some e →
      cacheTtlMs ≤ env₃.now - e.resolvedAt →
      resolveSecret env₃ st₃ ref config = resolveSecretMiss env₃ st₃ ref config) := by
  constructor
  · cases hhit : cacheFreshHit st.cache env₁.now ref with
    | some w =>
      exfalso
      unfold resolveSecret at h1
      rw [hhit] at h1
      simp at h1
    | none =>
      have hm : resolveSecret env₁ st ref config = resolveSecretMiss env₁ st ref config := by
        unfold resolveSecret
        rw [hhit]
      rw [hm] at h1 ⊢
      unfold resolveSecretMiss at h1 ⊢
      obtain ⟨st', hst⟩ := resolveParsed_success_state env₁ st ref _ v h1
      rw [hst]
      have hch : cacheFreshHit
          (setAssoc st'.cache ref ⟨v, env₁.now⟩) env₂.now ref = some v := by
        unfold cacheFreshHit
        rw [lookup_setAssoc]
        simp [h2]
      unfold resolveSecret
      rw [hch]
  · intro env₃ st₃ e he hstale
    have hch : cacheFreshHit st₃.cache env₃.now ref = none := by
      unfold cacheFreshHit
      rw [he]
      dsimp only
      rw [if_neg (not_lt.mpr hstale)]
    unfold resolveSecret
    rw [hch]

/-- A pass-backend oracle that always succeeds with the value `tok`. -/
def demoResolverEnv1 : ResolverEnv :=
  { isAvailable := fun _ => .ok true,
    backendResolve := fun _ _ _ => .ok (some "tok".toList), now := 0 }

/-- The same oracle one second later. -/
def demoResolverEnv2 : ResolverEnv :=
  { isAvailable := fun _ => .ok true,
    backendResolve := fun _ _ _ => .ok (some "tok".toList), now := 1000 }

/-- Witness for `resolveSecret_cache_ttl`: resolving `pass:openclaw/token`
twice, one second apart, hits the cache on the second call with no backend
interaction. -/
theorem resolveSecret_cache_ttl_witness :
    resolveSecret demoResolverEnv2
        (resolveSecret demoResolverEnv1 ⟨[], []⟩ "pass:openclaw/token".toList none).2.1
        "pass:openclaw/token".toList none
      = ({ ok := true, value := some "tok".toList, error := none, cached := some true },
         (resolveSecret demoResolverEnv1 ⟨[], []⟩ "pass:openclaw/token".toList none).2.1,
         []) :=
  (resolveSecret_cache_ttl demoResolverEnv1 demoResolverEnv2 ⟨[], []⟩
    "pass:openclaw/token".toList none "tok".toList rfl (by decide)).1

-- ==========================================================================
-- Ganesh tiered vault backend (src/secrets/backends/ganesh.ts)
-- ==========================================================================

/-- `SecretGroup` from the vault manifest. -/
structure SecretGroup where
  id : Str
  name : Str
  tier : Nat
  secrets : List Str
deriving DecidableEq, Repr

/-- `VaultManifest`; persisted manifests additionally carry a
`lastModified` stamp which `updateManifest` rewrites. -/
structure VaultManifest where
  version : Int
  groups : List SecretGroup
  defaultTier : Nat
  lastModified : Option Str
deriving DecidableEq, Repr

/-- The group walk of `getSecretTier`: first group whose `secrets` contains
the id wins; otherwise the manifest's `defaultTier`. -/
def tierFromGroups (groups : List SecretGroup) (defaultTier : Nat) (secretId : Str) : Nat :=
  match groups with
  | [] => defaultTier
  | g :: t => if secretId ∈ g.secrets then g.tier else tierFromGroups t defaultTier secretId

/-- `GaneshBackend.getSecretTier`: tier 1 with no manifest loaded. -/
def getSecretTier (manifest : Option VaultManifest) (secretId : Str) : Nat :=
  match manifest with
  | none => 1
  | some m => tierFromGroups m.groups m.defaultTier secretId

/-- The group walk of `getSecretGroup` (group *name* this time). -/
def nameFromGroups (groups : List SecretGroup) (secretId : Str) : Str :=
  match groups with
  | [] => "default".toList
  | g :: t => if secretId ∈ g.secrets then g.name else nameFromGroups t secretId

/-- `GaneshBackend.getSecretGroup`. -/
def getSecretGroupName (manifest : Option VaultManifest) (secretId : Str) : Str :=
  match manifest with
  | none => "default".toList
  | some m => nameFromGroups m.groups secretId

/-- `secretPath.replace(/\//g, "/")` — the replacement string equals the
pattern, so the "normalisation" maps `/` to `/`, i.e. changes nothing. -/
def normalizeGaneshPath (s : Str) : Str :=
  s.map (fun c => if c = '/' then '/' else c)

/-- In-memory fields of a `GaneshBackend` instance.  `secretsMap` is the
`secretsCache` map holding the decrypted secret store. -/
structure GaneshState where
  unlocked : Bool
  secretKey : Option Str
  publicKey : Option Str
  secretsMap : List (Str × Str)
  manifest : Option VaultManifest
deriving DecidableEq, Repr

/-- `Map.get` on the in-memory secret map. -/
def lookupSecret (m : List (Str × Str)) (k : Str) : Option Str :=
  (m.find? (fun kv => kv.1 = k)).map (·.2)

/-- `Map.set` on the in-memory secret map. -/
def setSecretEntry : List (Str × Str) → Str → Str → List (Str × Str)
  | [], k, v => [(k, v)]
  | (k', v') :: t, k, v =>
    if k' = k then (k, v) :: t else (k', v') :: setSecretEntry t k v

/-- The MFA configuration `getMfaConfig` assembles (`TelegramMfaConfig`). -/
structure MfaConfigLite where
  botToken : Str
  chatId : Str
  totpSecret : Str
  timeoutMs : Int
deriving DecidableEq, Repr

/-- External-world outcomes for one `GaneshBackend` operation: the unlock
pipeline (identity file read, `age-keygen`, manifest read, `age -d`
decryption — `none` when any step throws), `getMfaConfig`'s file/env reads
(which may consult the in-memory map for the fallback bot token),
`sendTelegramApprovalRequest`'s Telegram reply, `pollTelegramApproval`'s
terminal outcome, and the `age`-encrypt-and-write of `saveSecrets`. -/
structure GaneshEnv where
  unlockOutcome : Option (Str × Str × Option VaultManifest × List (Str × Str))
  mfaConfigFor : List (Str × Str) → Option MfaConfigLite
  sendOutcome : Option (Int × Str)
  approvalOutcome : Bool
  saveOutcome : Bool

/-- One observable MFA interaction (an approval request sent over the chat
transport). -/
inductive MfaEvent where
  | approvalRequested (secretId : Str) (groupName : Str)
deriving DecidableEq, Repr

/-- `GaneshBackend.unlock`: no-op success when already unlocked; otherwise
load key material, manifest and decrypted secrets, or fail leaving the vault
locked.  (A failed unlock can leave partially-assigned key material in the
source; `unlocked` stays `false` either way, which is all the other
operations observe.) -/
def ganeshUnlock (env : GaneshEnv) (st : GaneshState) : Bool × GaneshState :=
  if st.unlocked then (true, st)
  else
    match env.unlockOutcome with
    | some (sk, pk, m, secrets) =>
      (true, { unlocked := true, secretKey := some sk, publicKey := some pk,
               secretsMap := secrets, manifest := m })
    | none => (false, st)

/-- `GaneshBackend.resolveTier3`: look up the MFA config, send an approval
request, poll; only an approval releases the in-memory value.  The instance
state is untouched — the function's type records that no field (and no
cache) is written. -/
def resolveTier3 (env : GaneshEnv) (st : GaneshState) (secretPath : Str) :
    Option Str × List MfaEvent :=
  match env.mfaConfigFor st.secretsMap with
  | none => (none, [])
  | some _cfg =>
    match env.sendOutcome with
    | none => (none, [.approvalRequested secretPath (getSecretGroupName st.manifest secretPath)])
    | some _ids =>
      if env.approvalOutcome then
        (lookupSecret st.secretsMap secretPath,
         [.approvalRequested secretPath (getSecretGroupName st.manifest secretPath)])
      else
        (none, [.approvalRequested secretPath (getSecretGroupName st.manifest secretPath)])

/-- `GaneshBackend.resolve`: auto-unlock, tier lookup, direct map access for
tiers 1–2, the MFA exchange for tier 3. -/
def ganeshResolve (env : GaneshEnv) (st : GaneshState) (secretPath : Str) :
    Option Str × GaneshState × List MfaEvent :=
  match (if st.unlocked then (true, st) else ganeshUnlock env st) with
  | (ok, st₁) =>
    if !ok then (none, st₁, [])
    else
      if getSecretTier st₁.manifest (normalizeGaneshPath secretPath) < 3 then
        (lookupSecret st₁.secretsMap (normalizeGaneshPath secretPath), st₁, [])
      else
        match resolveTier3 env st₁ (normalizeGaneshPath secretPath) with
        | (v, events) => (v, st₁, events)

/-- The default-group update of `updateManifest`: the *first* group with id
`"default"` gains the secret id unless it already lists it.  (The source
checks membership only in this default group, not in any other group.) -/
def addToDefaultGroup : List SecretGroup → Str → List SecretGroup
  | [], _ => []
  | g :: t, secretId =>
    if g.id = "default".toList then
      (if secretId ∈ g.secrets then g
       else { g with secrets := g.secrets ++ [secretId] }) :: t
    else g :: addToDefaultGroup t secretId

/-- `GaneshBackend.updateManifest`, as a pure transform of the parsed
on-disk manifest: find or create the default group, add the secret path to
it if the default group does not already list it, stamp `lastModified`. -/
def updateManifest (now : Str) (m : VaultManifest) (secretId : Str) : VaultManifest :=
  if m.groups.any (fun g => g.id = "default".toList) then
    { m with groups := addToDefaultGroup m.groups secretId, lastModified := some now }
  else
    { m with
      groups := m.groups ++ [⟨"default".toList, "Default".toList, 1, [secretId]⟩],
      lastModified := some now }

/-- `GaneshBackend.store`: auto-unlock, merge the value into the in-memory
map, re-encrypt and write the blob (`saveSecrets`, an external effect that
may fail), then track the path in the manifest's default group.  Takes and
returns the parsed on-disk manifest that `updateManifest` reads and
writes. -/
def ganeshStore (env : GaneshEnv) (st : GaneshState) (diskManifest : VaultManifest)
    (now : Str) (secretPath value : Str) : Bool × GaneshState × VaultManifest :=
  match (if st.unlocked then (true, st) else ganeshUnlock env st) with
  | (ok, st₁) =>
    if !ok then (false, st₁, diskManifest)
    else
      if env.saveOutcome then
        (true, { st₁ with secretsMap := setSecretEntry st₁.secretsMap secretPath value },
         updateManifest now diskManifest secretPath)
      else
        (false, { st₁ with secretsMap := setSecretEntry st₁.secretsMap secretPath value },
         diskManifest)

-- ==========================================================================
-- C2: tier-3 resolution never caches and re-triggers MFA
-- ==========================================================================

/-- C2: for an unlocked vault, a tier-3 path with MFA configured and the
approval request deliverable: resolution leaves the backend state (the only
long-lived storage a resolution can reach) completely unchanged, performs
exactly one fresh MFA approval exchange, yields the value from the
in-memory decrypted map only when the exchange is approved (and `none`
otherwise), and a second resolve of the same path — on the state the first
call returned — again performs a fresh MFA exchange rather than any cache
hit. -/
theorem ganeshResolve_tier3_fresh_mfa (env : GaneshEnv) (st : GaneshState)
    (secretPath : Str) (cfg : MfaConfigLite) (ids : Int × Str)
    (hunlocked : st.unlocked = true)
    (htier : getSecretTier st.manifest (normalizeGaneshPath secretPath) = 3)
    (hcfg : env.mfaConfigFor st.secretsMap = some cfg)
    (hsend : env.sendOutcome = some ids) :
    (ganeshResolve env st secretPath).2.1 = st ∧
    (ganeshResolve env st secretPath).2.2
      = [.approvalRequested (normalizeGaneshPath secretPath)
          (getSecretGroupName st.manifest (normalizeGaneshPath secretPath))] ∧
    (ganeshResolve env st secretPath).1
      = (if env.approvalOutcome
         then lookupSecret st.secretsMap (normalizeGaneshPath secretPath)
         else none) ∧
    (ganeshResolve env (ganeshResolve env st secretPath).2.1 secretPath).2.2
      = [.approvalRequested (normalizeGaneshPath secretPath)
          (getSecretGroupName st.manifest (normalizeGaneshPath secretPath))] := by
  have hr3 : resolveTier3 env st (normalizeGaneshPath secretPath)
      = ((if env.approvalOutcome
          then lookupSecret st.secretsMap (normalizeGaneshPath secretPath)
          else none),
         [.approvalRequested (normalizeGaneshPath secretPath)
           (getSecretGroupName st.manifest (normalizeGaneshPath secretPath))]) := by
    unfold resolveTier3
    rw [hcfg, hsend]
    cases happr : env.approvalOutcome <;> simp [happr]
  have hmain : ganeshResolve env st secretPath
      = ((if env.approvalOutcome
          then lookupSecret st.secretsMap (normalizeGaneshPath secretPath)
          else none),
         st,
         [.approvalRequested (normalizeGaneshPath secretPath)
           (getSecretGroupName st.manifest (normalizeGaneshPath secretPath))]) := by
    have hu : (if st.unlocked then (true, st) else ganeshUnlock env st) = (true, st) := by
      simp [hunlocked]
    unfold ganeshResolve
    rw [hu]
    dsimp only
    rw [htier, hr3]
    simp
  refine ⟨by rw [hmain], by rw [hmain], by rw [hmain], ?_⟩
  rw [hmain]
  dsimp only
  rw [hmain]

/-- A vault state with one tier-3 secret, for the C2 witness. -/
def demoGaneshState : GaneshState :=
  { unlocked := true, secretKey := some "sk".toList, publicKey := some "pk".toList,
    secretsMap := [("prod/db-password".toList, "s3cret".toList)],
    manifest := some
      { version := 1,
        groups := [⟨"critical".toList, "Critical".toList, 3, ["prod/db-password".toList]⟩],
        defaultTier := 1, lastModified := none } }

/-- A fully-configured, approving MFA environment, for the C2 witness. -/
def demoGaneshEnv : GaneshEnv :=
  { unlockOutcome := none,
    mfaConfigFor := fun _ => some ⟨"bt".toList, "chat".toList, "totp".toList, 60000⟩,
    sendOutcome := some (7, "mfa_1".toList),
    approvalOutcome := true, saveOutcome := true }

/-- Witness for `ganeshResolve_tier3_fresh_mfa`: the tier-3 secret resolves
to the in-memory value after approval, the state is unchanged and both the
first and a second resolution send an approval request. -/
theorem ganeshResolve_tier3_fresh_mfa_witness :
    (ganeshResolve demoGaneshEnv demoGaneshState "prod/db-password".toList).2.1
        = demoGaneshState ∧
    (ganeshResolve demoGaneshEnv demoGaneshState "prod/db-password".toList).1
        = some "s3cret".toList ∧
    (ganeshResolve demoGaneshEnv
        (ganeshResolve demoGaneshEnv demoGaneshState "prod/db-password".toList).2.1
        "prod/db-password".toList).2.2
      = [.approvalRequested "prod/db-password".toList "Critical".toList] := by
  have h := ganeshResolve_tier3_fresh_mfa demoGaneshEnv demoGaneshState
    "prod/db-password".toList ⟨"bt".toList, "chat".toList, "totp".toList, 60000⟩
    (7, "mfa_1".toList) rfl (by decide) rfl rfl
  refine ⟨h.1, ?_, ?_⟩
  · rw [h.2.2.1]; decide
  · rw [h.2.2.2]; decide

-- ==========================================================================
-- C7: tier resolution and default-tier direct access
-- ==========================================================================

theorem tierFromGroups_find (groups : List SecretGroup) (dt : Nat) (sid : Str) :
    tierFromGroups groups dt sid
      = ((groups.find? (fun g => sid ∈ g.secrets)).map SecretGroup.tier).getD dt := by
  induction groups with
  | nil => rfl
  | cons g t ih =>
    unfold tierFromGroups
    by_cases hmem : sid ∈ g.secrets
    · rw [if_pos hmem, List.find?_cons_of_pos _ (by simpa using hmem)]
      rfl
    · rw [if_neg hmem, List.find?_cons_of_neg _ (by simpa using hmem)]
      exact ih

/-- C7: (general part) for a loaded manifest the tier of a path is the tier
of the (first) group containing it, and `defaultTier` when no group does;
(concrete part) when `defaultTier = 1` and no group of the manifest contains
the path, `ganeshResolve` on an unlocked vault answers directly from the
in-memory decrypted map, with no MFA event and no state change. -/
theorem ganeshResolve_default_tier (env : GaneshEnv) (st : GaneshState)
    (secretPath : Str) (m : VaultManifest)
    (hunlocked : st.unlocked = true)
    (hman : st.manifest = some m)
    (hdt : m.defaultTier = 1)
    (hnog : ∀ g ∈ m.groups, normalizeGaneshPath secretPath ∉ g.secrets) :
    ganeshResolve env st secretPath
      = (lookupSecret st.secretsMap (normalizeGaneshPath secretPath), st, []) ∧
    (∀ (m' : VaultManifest) (sid : Str),
      getSecretTier (some m') sid
        = ((m'.groups.find? (fun g => sid ∈ g.secrets)).map SecretGroup.tier).getD
            m'.defaultTier) := by
  constructor
  · have hfind : m.groups.find? (fun g => normalizeGaneshPath secretPath ∈ g.secrets) = none := by
      rw [List.find?_eq_none]
      intro g hg
      simpa using hnog g hg
    have htier : getSecretTier st.manifest (normalizeGaneshPath secretPath) = 1 := by
      rw [hman]
      show tierFromGroups m.groups m.defaultTier (normalizeGaneshPath secretPath) = 1
      rw [tierFromGroups_find, hfind, hdt]
      rfl
    have hu : (if st.unlocked then (true, st) else ganeshUnlock env st) = (true, st) := by
      simp [hunlocked]
    unfold ganeshResolve
    rw [hu]
    dsimp only
    rw [htier]
    simp
  · intro m' sid
    exact tierFromGroups_find m'.groups m'.defaultTier sid

/-- Witness for `ganeshResolve_default_tier`: a manifest with
`defaultTier = 1` and no group containing the path gives direct tier-1
access with no MFA. -/
theorem ganeshResolve_default_tier_witness :
    ganeshResolve demoGaneshEnv
        { unlocked := true, secretKey := some "sk".toList, publicKey := some "pk".toList,
          secretsMap := [("misc/api-key".toList, "v1".toList)],
          manifest := some { version := 1, groups := [], defaultTier := 1, lastModified := none } }
        "misc/api-key".toList
      = (some "v1".toList,
         { unlocked := true, secretKey := some "sk".toList, publicKey := some "pk".toList,
           secretsMap := [("misc/api-key".toList, "v1".toList)],
           manifest := some { version := 1, groups := [], defaultTier := 1, lastModified := none } },
         []) := by
  have h := (ganeshResolve_default_tier demoGaneshEnv
    { unlocked := true, secretKey := some "sk".toList, publicKey := some "pk".toList,
      secretsMap := [("misc/api-key".toList, "v1".toList)],
      manifest := some { version := 1, groups := [], defaultTier := 1, lastModified := none } }
    "misc/api-key".toList
    { version := 1, groups := [], defaultTier := 1, lastModified := none }
    rfl rfl rfl (by simp)).1
  rw [h]
  decide

-- ==========================================================================
-- C8: what store actually does to the manifest's groups
-- ==========================================================================

theorem addToDefaultGroup_mem_preserved {groups : List SecretGroup} {sid : Str}
    {g : SecretGroup} (hg : g ∈ groups) (hid : g.id ≠ "default".toList) :
    g ∈ addToDefaultGroup groups sid := by
  induction groups with
  | nil => cases hg
  | cons h t ih =>
    unfold addToDefaultGroup
    by_cases hh : h.id = "default".toList
    · rw [if_pos hh]
      rcases List.mem_cons.mp hg with rfl | hg'
      · exact absurd hh hid
      · exact List.mem_cons_of_mem _ hg'
    · rw [if_neg hh]
      rcases List.mem_cons.mp hg with rfl | hg'
      · exact List.mem_cons_self _ _
      · exact List.mem_cons_of_mem _ (ih hg')

theorem addToDefaultGroup_idem {groups : List SecretGroup} {sid : Str}
    {g : SecretGroup}
    (hfind : groups.find? (fun h => h.id = "default".toList) = some g)
    (hmem : sid ∈ g.secrets) :
    addToDefaultGroup groups sid = groups := by
  induction groups with
  | nil => simp [List.find?] at hfind
  | cons h t ih =>
    unfold addToDefaultGroup
    by_cases hh : h.id = "default".toList
    · rw [if_pos hh]
      rw [List.find?_cons_of_pos _ (by simpa using hh)] at hfind
      have : h = g := by simpa using hfind
      subst this
      rw [if_pos hmem]
    · rw [if_neg hh]
      rw [List.find?_cons_of_neg _ (by simpa using hh)] at hfind
      rw [ih hfind]

/-- C8 counterexample: a manifest whose group `api` (tier 2) already tracks
`openclaw/anthropic-key`, plus an empty default group.  The claim says store
adds the path to the default group *only if it is not already tracked in any
group*; but `updateManifest` checks only the default group, so the path ends
up tracked by **two** groups, and the at-most-one-group invariant breaks. -/
def cexManifest : VaultManifest :=
  { version := 1,
    groups := [⟨"api".toList, "API keys".toList, 2, ["openclaw/anthropic-key".toList]⟩,
               ⟨"default".toList, "Default".toList, 1, []⟩],
    defaultTier := 1, lastModified := none }

/-- C8 counterexample theorem: before the update the path is tracked by
exactly one group (so the claim's guard "not already tracked in any group"
is false), yet after `updateManifest` the path is tracked by two groups —
`store` added it to the default group anyway. -/
theorem updateManifest_double_tracking_counterexample :
    (cexManifest.groups.countP
        (fun g => "openclaw/anthropic-key".toList ∈ g.secrets) = 1) ∧
    ((updateManifest "2026-01-01".toList cexManifest
        "openclaw/anthropic-key".toList).groups.countP
        (fun g => "openclaw/anthropic-key".toList ∈ g.secrets) = 2) := by
  constructor
  · decide
  · decide

/-- C8 (amended): `GaneshBackend.store` (vault unlocked, save succeeding)
rewrites the on-disk manifest through `updateManifest`, which adds the
stored path to the *first default group* only if that default group does not
already list it — membership in other groups is not consulted.  It is
idempotent with respect to the default group, and every group with a
different id survives the update unchanged, so a path already tracked
elsewhere stays tracked there (each path belongs to at most one group only
if it was not stored while classified in a non-default group). -/
theorem ganeshStore_manifest_update (env : GaneshEnv) (st : GaneshState)
    (diskManifest : VaultManifest) (now : Str) (secretPath value : Str)
    (hunlocked : st.unlocked = true) (hsave : env.saveOutcome = true) :
    ((ganeshStore env st diskManifest now secretPath value).1 = true ∧
     (ganeshStore env st diskManifest now secretPath value).2.2
        = updateManifest now diskManifest secretPath) ∧
    (∀ g : SecretGroup,
      diskManifest.groups.find? (fun h => h.id = "default".toList) = some g →
      secretPath ∈ g.secrets →
      (updateManifest now diskManifest secretPath).groups = diskManifest.groups) ∧
    (∀ g ∈ diskManifest.groups, g.id ≠ "default".toList →
      g ∈ (updateManifest now diskManifest secretPath).groups) := by
  refine ⟨?_, ?_, ?_⟩
  · have hu : (if st.unlocked then (true, st) else ganeshUnlock env st) = (true, st) := by
      simp [hunlocked]
    unfold ganeshStore
    rw [hu]
    dsimp only
    rw [hsave]
    exact ⟨rfl, rfl⟩
  · intro g hfind hmem
    unfold updateManifest
    have hany : diskManifest.groups.any (fun h => h.id = "default".toList) = true := by
      have hmem' := List.mem_of_find?_eq_some hfind
      have hpg := List.find?_some hfind
      rw [List.any_eq_true]
      exact ⟨g, hmem', hpg⟩
    rw [if_pos hany]
    dsimp only
    rw [addToDefaultGroup_idem hfind hmem]
  · intro g hg hid
    unfold updateManifest
    by_cases hany : diskManifest.groups.any (fun h => h.id = "default".toList) = true
    · rw [if_pos hany]
      exact addToDefaultGroup_mem_preserved hg hid
    · rw [if_neg hany]
      exact List.mem_append_left _ hg

/-- Witness for `ganeshStore_manifest_update` on a concrete unlocked vault
storing a path the default group already lists. -/
theorem ganeshStore_manifest_update_witness :
    ((ganeshStore demoGaneshEnv demoGaneshState
        { version := 1,
          groups := [⟨"default".toList, "Default".toList, 1, ["old/path".toList]⟩],
          defaultTier := 1, lastModified := none }
        "t0".toList "old/path".toList "v".toList).2.2
      = updateManifest "t0".toList
          { version := 1,
            groups := [⟨"default".toList, "Default".toList, 1, ["old/path".toList]⟩],
            defaultTier := 1, lastModified := none }
          "old/path".toList) ∧
    ((updateManifest "t0".toList
        { version := 1,
          groups := [⟨"default".toList, "Default".toList, 1, ["old/path".toList]⟩],
          defaultTier := 1, lastModified := none }
        "old/path".toList).groups
      = [⟨"default".toList, "Default".toList, 1, ["old/path".toList]⟩]) := by
  have h := ganeshStore_manifest_update demoGaneshEnv demoGaneshState
    { version := 1,
      groups := [⟨"default".toList, "Default".toList, 1, ["old/path".toList]⟩],
      defaultTier := 1, lastModified := none }
    "t0".toList "old/path".toList "v".toList rfl rfl
  refine ⟨h.1.2, ?_⟩
  rw [h.2.1 ⟨"default".toList, "Default".toList, 1, ["old/path".toList]⟩
    (by decide) (by decide)]

-- ==========================================================================
-- TOTP (src/secrets/backends/ganesh.ts, generateTotp / verifyTotp)
-- ==========================================================================

/-- The base32 alphabet of `generateTotp`. -/
def base32Chars : Str := "ABCDEFGHIJKLMNOPQRSTUVWXYZ234567".toList

/-- The character class kept by `replace(/[^A-Z2-7]/g, "")`. -/
def isBase32Char (c : Char) : Bool :=
  ('A' ≤ c && c ≤ 'Z') || ('2' ≤ c && c ≤ '7')

/-- `base32Chars.indexOf(char)` (only applied to kept characters). -/
def base32Index (c : Char) : Nat := base32Chars.indexOf c

/-- `indexOf(...).toString(2).padStart(5, "0")`: five bits, most significant
first. -/
def natToBits5 (n : Nat) : List Bool :=
  [n.testBit 4, n.testBit 3, n.testBit 2, n.testBit 1, n.testBit 0]

/-- One byte from eight big-endian bits (`parseInt(bits.slice(...), 2)`). -/
def byteOfBits (l : List Bool) : Nat :=
  l.foldl (fun acc b => acc * 2 + (if b then 1 else 0)) 0

/-- Consume the bit string eight bits at a time; a trailing partial byte is
dropped (`Math.floor(bits.length / 8)`). -/
def bitsToBytes : List Bool → List Nat
  | b0 :: b1 :: b2 :: b3 :: b4 :: b5 :: b6 :: b7 :: rest =>
    byteOfBits [b0, b1, b2, b3, b4, b5, b6, b7] :: bitsToBytes rest
  | _ => []

/-- The base32 key decoding of `generateTotp`. -/
def base32Decode (secret : Str) : List Nat :=
  bitsToBytes
    ((((secret.map charToUpper).filter (isBase32Char ·)).map
      (fun c => natToBits5 (base32Index c))).flatten)

/-- `Buffer.alloc(8); buffer.writeBigInt64BE(BigInt(counter))`: the 64-bit
two's-complement big-endian bytes of the counter. -/
def int64be (n : Int) : List Nat :=
  [( (n % 2 ^ 64).toNat / 2 ^ 56) % 256,
   ((n % 2 ^ 64).toNat / 2 ^ 48) % 256,
   ((n % 2 ^ 64).toNat / 2 ^ 40) % 256,
   ((n % 2 ^ 64).toNat / 2 ^ 32) % 256,
   ((n % 2 ^ 64).toNat / 2 ^ 24) % 256,
   ((n % 2 ^ 64).toNat / 2 ^ 16) % 256,
   ((n % 2 ^ 64).toNat / 2 ^ 8) % 256,
   (n % 2 ^ 64).toNat % 256]

/-- The external keyed hash (`crypto.createHmac("sha1", key)`), an oracle:
key bytes and message bytes to digest bytes (20 bytes for real SHA-1). -/
abbrev HmacFn := List Nat → List Nat → List Nat

/-- RFC 6238 dynamic truncation as written in `generateTotp` (indexing a
too-short digest yields 0 here; the real digest always has 20 bytes). -/
def dynTruncate (hash : List Nat) : Nat :=
  ((hash.getD ((hash.getLastD 0) &&& 0x0f) 0 &&& 0x7f) <<< 24) |||
  ((hash.getD (((hash.getLastD 0) &&& 0x0f) + 1) 0 &&& 0xff) <<< 16) |||
  ((hash.getD (((hash.getLastD 0) &&& 0x0f) + 2) 0 &&& 0xff) <<< 8) |||
  (hash.getD (((hash.getLastD 0) &&& 0x0f) + 3) 0 &&& 0xff)

/-- `Math.floor(time / 1000 / 30)`: the 30-second time-step counter.  For
the positive constant divisor, Lean's Euclidean `Int` division is floor
division. -/
def totpCounter (timeMs : Int) : Int := timeMs / 30000

/-- `(code % 1000000).toString().padStart(6, "0")`. -/
def pad6 (n : Nat) : Str :=
  List.replicate (6 - (Nat.toDigits 10 n).length) '0' ++ Nat.toDigits 10 n

/-- The six-digit code belonging to one counter value (the body of
`generateTotp` after the counter computation). -/
def totpCodeAtCounter (hmac : HmacFn) (secret : Str) (c : Int) : Str :=
  pad6 (dynTruncate (hmac (base32Decode secret) (int64be c)) % 1000000)

/-- `generateTotp(secret, time)`. -/
def generateTotp (hmac : HmacFn) (secret : Str) (timeMs : Int) : Str :=
  totpCodeAtCounter hmac secret (totpCounter timeMs)

/-- `verifyTotp(secret, token, window)`: try the current counter and
`window` steps on either side (`i` from `-window` to `window`). -/
def verifyTotp (hmac : HmacFn) (secret : Str) (token : Str) (nowMs : Int)
    (window : Nat) : Bool :=
  (List.range (2 * window + 1)).any
    (fun j => generateTotp hmac secret (nowMs + ((j : Int) - window) * 30000) == token)

theorem totpCounter_shift (t k : Int) :
    totpCounter (t + k * 30000) = totpCounter t + k := by
  unfold totpCounter
  omega

theorem totpCounter_mono {a b : Int} (h : a ≤ b) :
    totpCounter a ≤ totpCounter b := by
  unfold totpCounter
  omega

-- ==========================================================================
-- C6: the acceptance window of verifyTotp
-- ==========================================================================

/-- C6: with the default window (1). Accept: a code generated from the same
shared secret at most 30 seconds in the past or future lands on the current
30-second counter or one step either side, so `verifyTotp` accepts it — for
*every* keyed hash, i.e. independently of SHA-1.  Reject: a code generated
90 or more seconds away belongs to a counter at least three steps from the
current one, which the window never reaches, so verification fails provided
the six-digit code of the generation counter does not collide with the code
of any counter inside the checked window (the hash is the external
`node:crypto` HMAC-SHA1, an oracle here; without that no-collision side
condition a 6-digit collision could mask the distance). -/
theorem verifyTotp_window (hmac : HmacFn) (secret : Str) (now g : Int) :
    ((g - now).natAbs ≤ 30000 →
      verifyTotp hmac secret (generateTotp hmac secret g) now 1 = true) ∧
    (90000 ≤ (g - now).natAbs →
      (∀ i : Int, i.natAbs ≤ 1 → totpCounter now + i ≠ totpCounter g →
        totpCodeAtCounter hmac secret (totpCounter now + i)
          ≠ totpCodeAtCounter hmac secret (totpCounter g)) →
      verifyTotp hmac secret (generateTotp hmac secret g) now 1 = false) := by
  constructor
  · intro h
    have hlo : now + (-1) * 30000 ≤ g := by omega
    have hhi : g ≤ now + 1 * 30000 := by omega
    have hclo := totpCounter_mono hlo
    have hchi := totpCounter_mono hhi
    rw [totpCounter_shift] at hclo hchi
    have hd1 : -1 ≤ totpCounter g - totpCounter now := by omega
    have hd2 : totpCounter g - totpCounter now ≤ 1 := by omega
    unfold verifyTotp
    rw [List.any_eq_true]
    refine ⟨(totpCounter g - totpCounter now + 1).toNat, List.mem_range.mpr (by omega), ?_⟩
    rw [show (((totpCounter g - totpCounter now + 1).toNat : Int) - (1 : Nat))
        = totpCounter g - totpCounter now from by omega]
    unfold generateTotp
    rw [totpCounter_shift]
    rw [show totpCounter now + (totpCounter g - totpCounter now) = totpCounter g from by ring]
    exact beq_self_eq_true _
  · intro h hdiff
    have hsplit : 90000 ≤ g - now ∨ g - now ≤ -90000 := by omega
    have hfar : totpCounter now + 3 ≤ totpCounter g ∨
        totpCounter g ≤ totpCounter now + (-3) := by
      rcases hsplit with hs | hs
      · left
        have := totpCounter_mono (show now + 3 * 30000 ≤ g by omega)
        rw [totpCounter_shift] at this
        omega
      · right
        have := totpCounter_mono (show g ≤ now + (-3) * 30000 by omega)
        rw [totpCounter_shift] at this
        omega
    unfold verifyTotp
    rw [List.any_eq_false]
    intro j hj
    rw [List.mem_range] at hj
    rw [Bool.not_eq_true, beq_eq_false_iff_ne]
    unfold generateTotp
    rw [totpCounter_shift]
    exact hdiff ((j : Int) - (1 : Nat)) (by omega) (by omega)

/-- A concrete keyed-hash oracle for the C6 witness: the digest's fourth
byte is the message's last byte, so the six-digit code of counter `c` is
`c mod 256`, zero-padded. -/
def demoHmac : HmacFn := fun _key msg => [0, 0, 0, msg.getLastD 0] ++ List.replicate 16 0

/-- Witness for `verifyTotp_window` with `now = 0`: the code generated 30
seconds in the future is accepted, and the code generated 90 seconds in the
future (counter 3, no collision with counters −1, 0, 1 under `demoHmac`) is
rejected. -/
theorem verifyTotp_window_witness :
    verifyTotp demoHmac "JBSWY3DP".toList
        (generateTotp demoHmac "JBSWY3DP".toList 30000) 0 1 = true ∧
    verifyTotp demoHmac "JBSWY3DP".toList
        (generateTotp demoHmac "JBSWY3DP".toList 90000) 0 1 = false := by
  constructor
  · exact (verifyTotp_window demoHmac "JBSWY3DP".toList 0 30000).1 (by decide)
  · refine (verifyTotp_window demoHmac "JBSWY3DP".toList 0 90000).2 (by decide) ?_
    intro i hi hne
    have hcases : i = -1 ∨ i = 0 ∨ i = 1 := by omega
    rcases hcases with rfl | rfl | rfl <;> decide

-- ==========================================================================
-- Pass-store backend (src/secrets/backends/pass.ts, PassBackend.resolve)
-- ==========================================================================

/-- The allow-list sanitisation of `PassBackend.resolve`: every character
outside the class a–z, A–Z, 0–9, underscore, hyphen, slash is removed
before the path is interpolated into the shell command. -/
def sanitizePassPath (s : Str) : Str :=
  s.filter (fun c =>
    ('a' ≤ c && c ≤ 'z') || ('A' ≤ c && c ≤ 'Z') || ('0' ≤ c && c ≤ '9') ||
    c = '_' || c = '-' || c = '/')

/-- The shell command `pass show "<sanitised path>"` handed to `execAsync`
(with the 10s timeout and environment applied externally). -/
def passShowCmd (path : Str) : Str :=
  "pass show \"".toList ++ sanitizePassPath path ++ "\"".toList

/-- `stdout.split("\n")[0]`: the first line (split always yields at least
one element, so the optional chaining never produces undefined). -/
def firstLine (s : Str) : Str := s.takeWhile (· ≠ '\n')

/-- `PassBackend.resolve`.  `execOut` is the external `pass` invocation:
`.ok stdout` for a zero-exit run, `.error message` for a rejection (non-zero
exit or timeout, message = error text).  The catch block distinguishes the
"not in the password store" message only for logging: both expected absence
and any other failure return `null`, never a thrown fault. -/
def passResolve (execOut : Str → Except Str Str) (secretPath : Str) : Option Str :=
  match execOut (passShowCmd secretPath) with
  | .ok stdout =>
    if jsTrim (firstLine stdout) = [] then none else some (jsTrim (firstLine stdout))
  | .error message =>
    if containsSub message "not in the password store".toList then none
    else none

-- ==========================================================================
-- C10: pass resolve returns the trimmed first line or null, never throws
-- ==========================================================================

/-- C10: `PassBackend.resolve` returns either the trimmed first line of the
external tool's (possibly multi-line) output or `null`: a successful run
yields the trimmed first line when non-empty and `null` otherwise; every
failing run — the "not in the password store" case in particular — yields
`null` rather than propagating the tool's error text (the embedding is a
total function: no fault escapes); and any returned value is exactly the
non-empty trimmed first line of an actual tool output. -/
theorem passResolve_first_line_or_null (execOut : Str → Except Str Str)
    (secretPath : Str) :
    (∀ stdout, execOut (passShowCmd secretPath) = .ok stdout →
      passResolve execOut secretPath
        = (if jsTrim (firstLine stdout) = [] then none
           else some (jsTrim (firstLine stdout)))) ∧
    (∀ message, execOut (passShowCmd secretPath) = .error message →
      passResolve execOut secretPath = none) ∧
    (∀ v, passResolve execOut secretPath = some v →
      ∃ stdout, execOut (passShowCmd secretPath) = .ok stdout ∧
        v = jsTrim (firstLine stdout) ∧ v ≠ []) := by
  refine ⟨?_, ?_, ?_⟩
  · intro stdout hout
    unfold passResolve
    rw [hout]
  · intro message herr
    unfold passResolve
    rw [herr]
    dsimp only
    by_cases hnf : containsSub message "not in the password store".toList = true
    · rw [if_pos hnf]
    · rw [if_neg hnf]
  · intro v hv
    unfold passResolve at hv
    cases hout : execOut (passShowCmd secretPath) with
    | ok stdout =>
      rw [hout] at hv
      dsimp only at hv
      by_cases hemp : jsTrim (firstLine stdout) = []
      · rw [if_pos hemp] at hv
        cases hv
      · rw [if_neg hemp] at hv
        exact ⟨stdout, rfl, by injection hv with h; exact h.symm, by
          injection hv with h; rw [← h]; exact hemp⟩
    | error message =>
      rw [hout] at hv
      dsimp only at hv
      by_cases hnf : containsSub message "not in the password store".toList = true
      · rw [if_pos hnf] at hv; cases hv
      · rw [if_neg hnf] at hv; cases hv

/-- Witness for `passResolve_first_line_or_null`: a multi-line tool output
yields its trimmed first line; a "not found" failure yields `null`. -/
theorem passResolve_first_line_or_null_witness :
    passResolve (fun _ => .ok "secret-value \nsecond line".toList)
        "openclaw/token".toList = some "secret-value".toList ∧
    passResolve
        (fun _ => .error "Error: openclaw/token is not in the password store.".toList)
        "openclaw/token".toList = none := by
  constructor
  · have h := (passResolve_first_line_or_null
      (fun _ => .ok "secret-value \nsecond line".toList) "openclaw/token".toList).1
      "secret-value \nsecond line".toList rfl
    rw [h]
    decide
  · exact (passResolve_first_line_or_null
      (fun _ => .error "Error: openclaw/token is not in the password store.".toList)
      "openclaw/token".toList).2.1
      "Error: openclaw/token is not in the password store.".toList rfl
